import Mathlib

/-!
Shallow embedding of `src/bundler.js` (the minipack-style module bundler) and
proofs about the claims of its specification.

Modelling conventions:
* The external collaborators (babylon parse, babel-traverse, babel transform)
  are folded into the file system: a module file is characterised by the data
  the analyzer extracts from it — its ordered list of raw import specifiers
  (what `traverse` collects from `ImportDeclaration` nodes) and its lowered
  code string (what `babel.transformFromAst` returns).  The file system is a
  partial map from filename to that data; a missing file models the `ENOENT`
  throw of `fs.readFileSync`.
* Node's `path.dirname` / `path.join` are opaque library functions; they are
  passed as an explicit `PathOps` record.
* The global mutable counter `ID` (bundler.js line 34) is threaded explicitly
  through the traversal, starting at 0 exactly as in the one program run
  `createGraph('./src/entry.js')` performed by the script.
* The `for (const asset of queue)` loop of `createGraph` (lines 104-128)
  iterates over an array that grows while it is being iterated; it is modelled
  as a worklist loop `buildLoop` over (processed, pending) lists with an
  explicit fuel parameter, returning `none` when the fuel is exhausted (the
  loop did not terminate within the bound).
-/

namespace Minipack

/-- What the Module Analyzer extracts from one source file: the ordered list
of raw import specifiers and the lowered (transpiled) code. -/
structure ModuleSrc where
  deps : List String
  code : String
deriving DecidableEq

/-- The file system: filename to analyzable content, `none` = unreadable. -/
def FS : Type := String → Option ModuleSrc

/-- Node `path` operations used by `createGraph` (opaque collaborators). -/
structure PathOps where
  dirname : String → String
  join : String → String → String

/-- The asset record returned by `createAsset` (bundler.js lines 75-84),
with the `mapping` field that `createGraph` later fills in (line 110). -/
structure Asset where
  id : Nat
  filename : String
  deps : List String
  mapping : List (String × Nat)
  code : String
deriving DecidableEq

/-- Build-time failure: `fs.readFileSync` throwing on a missing/unreadable
file (bundler.js line 39).  The payload is the filename passed to the read. -/
inductive Err where
  | readError (filename : String)
deriving DecidableEq

/-- The path the error message names (Node's ENOENT names the opened path). -/
def Err.named : Err → String
  | .readError f => f

/-- JavaScript object property assignment `m[k] = v`: updating an existing key
keeps its position, a new key is appended (this is the key order
`JSON.stringify` later serialises). -/
def jsInsert (m : List (String × Nat)) (k : String) (v : Nat) : List (String × Nat) :=
  if k ∈ m.map Prod.fst then
    m.map (fun p => if p.1 = k then (k, v) else p)
  else
    m ++ [(k, v)]

/-- JavaScript object property read `m[k]` (`undefined` becomes `none`). -/
def lookupMap (m : List (String × Nat)) (k : String) : Option Nat :=
  (m.find? (fun p => p.1 == k)).map Prod.snd

/-- `createAsset` (bundler.js lines 37-86): read the file, extract deps and
lowered code, assign the next id from the counter.  The counter is the
threaded image of the global `ID`. -/
def createAsset (fs : FS) (ctr : Nat) (filename : String) : Except Err (Asset × Nat) :=
  match fs filename with
  | none => .error (.readError filename)
  | some src =>
      .ok ({ id := ctr, filename := filename, deps := src.deps,
             mapping := [], code := src.code }, ctr + 1)

/-- The body of `asset.deps.forEach` (bundler.js lines 114-127): for each
relative path in order, join it with the directory, append ".js", analyze the
child, record `mapping[relativePath] = child.id`, and push the child. -/
def processDeps (fs : FS) (P : PathOps) (dir : String) :
    List String → Nat → List (String × Nat) →
    Except Err (List (String × Nat) × List Asset × Nat)
  | [], ctr, m => .ok (m, [], ctr)
  | s :: ss, ctr, m =>
      match createAsset fs ctr (P.join dir s ++ ".js") with
      | .error e => .error e
      | .ok (child, ctr') =>
          match processDeps fs P dir ss ctr' (jsInsert m s child.id) with
          | .error e => .error e
          | .ok (m', ch, ctr'') => .ok (m', child :: ch, ctr'')

/-- One iteration of the `for (const asset of queue)` loop (lines 104-128):
take the module's directory, reset its mapping to `{}`, process its deps. -/
def processAsset (fs : FS) (P : PathOps) (ctr : Nat) (a : Asset) :
    Except Err (Asset × List Asset × Nat) :=
  match processDeps fs P (P.dirname a.filename) a.deps ctr [] with
  | .error e => .error e
  | .ok (m, ch, ctr') => .ok ({ a with mapping := m }, ch, ctr')

/-- The growing-array loop of `createGraph`, as a fuelled worklist: `done` are
the already-iterated queue entries (with mapping filled), the fourth argument
the still-pending ones.  `none` = the fuel ran out before the queue emptied. -/
def buildLoop (fs : FS) (P : PathOps) :
    Nat → Nat → List Asset → List Asset → Option (Except Err (List Asset))
  | _, _, done, [] => some (.ok done)
  | 0, _, _, _ :: _ => none
  | fuel + 1, ctr, done, a :: todo =>
      match processAsset fs P ctr a with
      | .error e => some (.error e)
      | .ok (a', ch, ctr') => buildLoop fs P fuel ctr' (done ++ [a']) (todo ++ ch)

/-- `createGraph` (bundler.js lines 93-133): analyze the entry (ID counter at
0, as in the script's single run), then run the queue loop. -/
def createGraph (fs : FS) (P : PathOps) (fuel : Nat) (entry : String) :
    Option (Except Err (List Asset)) :=
  match createAsset fs 0 entry with
  | .error e => some (.error e)
  | .ok (a, ctr) => buildLoop fs P fuel ctr [] [a]

/-- `JSON.stringify` of a specifier map (insertion-ordered keys). -/
def jsonStringify (m : List (String × Nat)) : String :=
  "\x7b" ++ String.intercalate ","
    (m.map (fun p => "\"" ++ p.1 ++ "\":" ++ toString p.2)) ++ "\x7d"

/-- One registry entry of the emitted artifact (bundler.js lines 146-153). -/
def moduleEntry (m : Asset) : String :=
  toString m.id ++ ": [\n      function(require, module, exports) \x7b\n        "
    ++ m.code ++ "\n      \x7d,\n      " ++ jsonStringify m.mapping ++ "\n    ],"

/-- The `graph.forEach` concatenation building the registry literal. -/
def modulesString : List Asset → String
  | [] => ""
  | a :: t => moduleEntry a ++ modulesString t

/-- The fixed runtime-loader preamble of the template literal (lines 155-171),
up to the bootstrap call. -/
def bundleHeaderA : String :=
  "\n    (function(modules) \x7b\n      function require(id) \x7b\n        const [fn, mapping] = modules[id]\n\n        function localRequire(relativePath) \x7b\n          return require(mapping[relativePath])\n        \x7d\n\n        const module = \x7b exports: \x7b\x7d \x7d\n\n        fn(localRequire, module, module.exports)\n\n        return module.exports;\n\n      \x7d\n\n      "

/-- The trailing bootstrap call of the loader (line 172). -/
def bundleBootstrap : String := "require(0)"

/-- The template text between the bootstrap call and the spliced registry. -/
def bundleHeaderB : String := "\n    \x7d)(\x7b\n      "

/-- The closing text of the template literal (lines 174-176). -/
def bundleFooter : String := "\n    \x7d)\n  "

/-- `bundle` (bundler.js lines 141-179): splice the registry into the fixed
loader template. -/
def bundle (g : List Asset) : String :=
  bundleHeaderA ++ bundleBootstrap ++ bundleHeaderB ++ modulesString g ++ bundleFooter

/-- The whole script (bundler.js lines 181-183): build the graph, then emit.
If `createGraph` throws, no artifact string is produced. -/
def buildArtifact (fs : FS) (P : PathOps) (fuel : Nat) (entry : String) :
    Option (Except Err String) :=
  (createGraph fs P fuel entry).map (fun r => r.map bundle)

/-! ## Runtime loader model

The generated loader (the template in `bundle`, bundler.js lines 155-176) is
executed with an opaque module function per id.  Modelled from the spec: the
lowered code of a module, when invoked, calls `localRequire` on each of the
module's raw specifiers in source order (the code-lowering collaborator turns
each top-level import into such a call), then finishes; the contents of the
exports objects are abstracted away and only the order in which module bodies
start executing (the trace of ids) is observed. -/

/-- Runtime throw inside the generated loader: destructuring an absent
registry entry (`modules[id]` undefined), or requiring a specifier absent
from the module's mapping. -/
inductive RtErr where
  | badId
  | badSpecifier
deriving DecidableEq

/-- A runtime registry entry: the specifiers the module function requires in
order, and the specifier map serialised next to it. -/
structure RtModule where
  body : List String
  mapping : List (String × Nat)
deriving DecidableEq

/-- The `modules` object handed to the self-invoking loader. -/
def Registry : Type := Nat → Option RtModule

/-- Result of running the loader: the fuel ran out (the execution did not
finish within the bound), a runtime throw, or completion with the trace of
module ids whose bodies started executing, in order. -/
inductive RunRes where
  | timeout
  | err (e : RtErr)
  | ok (trace : List Nat)
deriving DecidableEq

/-- Run a module function's sequence of `localRequire(s)` calls, given the
behaviour `req` of the `require` closure: look each specifier up in the
module's mapping (an absent key yields `require(undefined)`, which throws when
destructuring `modules[undefined]`), and concatenate the traces. -/
def runBodyWith (req : Nat → RunRes) (mp : List (String × Nat)) :
    List String → RunRes
  | [] => .ok []
  | s :: ss =>
      match lookupMap mp s with
      | none => .err .badSpecifier
      | some cid =>
          match req cid with
          | .timeout => .timeout
          | .err e => .err e
          | .ok t1 =>
              match runBodyWith req mp ss with
              | .timeout => .timeout
              | .err e => .err e
              | .ok t2 => .ok (t1 ++ t2)

/-- The generated `require(id)` (bundler.js lines 157-170): destructure
`modules[id]` (throws if absent), build a fresh `module.exports`, run the
module function with `localRequire`, return the exports.  There is no cache:
every call runs the body.  Fuel bounds the call-stack depth. -/
def runReq (reg : Registry) : Nat → Nat → RunRes
  | 0, _ => .timeout
  | fuel + 1, i =>
      match reg i with
      | none => .err .badId
      | some m =>
          match runBodyWith (runReq reg fuel) m.mapping m.body with
          | .timeout => .timeout
          | .err e => .err e
          | .ok t => .ok (i :: t)

/-- The registry the artifact's object literal denotes for a built graph:
`id` keys to the pair of module function and specifier map; the module
function's require behaviour is its raw specifier list. -/
def registryOf (g : List Asset) : Registry :=
  fun i => (g.find? (fun a => a.id == i)).map (fun a => ⟨a.deps, a.mapping⟩)

/-- Whether a graph build terminates at all (some fuel suffices). -/
def GraphBuildTerminates (fs : FS) (P : PathOps) (entry : String) : Prop :=
  ∃ fuel res, createGraph fs P fuel entry = some res

/-- Whether executing the artifact from module `i` terminates (completes or
throws) under some fuel. -/
def RtTerminates (reg : Registry) (i : Nat) : Prop :=
  ∃ fuel, runReq reg fuel i ≠ .timeout

/-! ## Closed-set divergence condition (for cyclic inputs)

`fsClosedOn fs P S` says: every file in `S` exists, has at least one import,
and all its imports resolve to files in `S` again.  The queue of `createGraph`
never empties on such a set, so the build diverges. -/

/-- One file of a closed cyclic set: readable, at least one dep, all deps
resolving back into the set. -/
def srcOk (fs : FS) (P : PathOps) (S : List String) (f : String) : Bool :=
  match fs f with
  | none => false
  | some src =>
      decide (src.deps ≠ []) &&
        src.deps.all (fun s => decide (P.join (P.dirname f) s ++ ".js" ∈ S))

/-- Every file of `S` satisfies `srcOk`. -/
def fsClosedOn (fs : FS) (P : PathOps) (S : List String) : Bool :=
  S.all (srcOk fs P S)

/-! ## Concrete fixtures -/

/-- Concrete path operations agreeing with Node's `path` on the fixture
filenames: every fixture file lives in directory `src`, and joining `src`
with a `./name` specifier yields `src/name`. -/
def pstd : PathOps :=
  { dirname := fun _ => "src", join := fun d s => d ++ String.drop s 1 }

/-- Diamond fixture: `e` imports `./b` and `./c`; both `b` and `c` import
`./a`. -/
def fs1 : FS := fun f =>
  if f = "src/e.js" then some ⟨["./b", "./c"], "cE"⟩
  else if f = "src/b.js" then some ⟨["./a"], "cB"⟩
  else if f = "src/c.js" then some ⟨["./a"], "cC"⟩
  else if f = "src/a.js" then some ⟨[], "cA"⟩
  else none

/-- The diamond build's entry record. -/
def E1 : Asset := ⟨0, "src/e.js", ["./b", "./c"], [("./b", 1), ("./c", 2)], "cE"⟩

/-- The diamond build's record for `src/b.js` (one importer of `src/a.js`). -/
def B1 : Asset := ⟨1, "src/b.js", ["./a"], [("./a", 3)], "cB"⟩

/-- The diamond build's record for `src/c.js` (the other importer of
`src/a.js`). -/
def Cr1 : Asset := ⟨2, "src/c.js", ["./a"], [("./a", 4)], "cC"⟩

/-- The first of the two records the build creates for `src/a.js`. -/
def A1a : Asset := ⟨3, "src/a.js", [], [], "cA"⟩

/-- The second record the build creates for the same file `src/a.js`. -/
def A1b : Asset := ⟨4, "src/a.js", [], [], "cA"⟩

/-- The five records the diamond build produces (two of them for `src/a.js`). -/
def G1 : List Asset := [E1, B1, Cr1, A1a, A1b]

/-- Two-module import cycle: `a` imports `./b`, `b` imports `./a`. -/
def fsAB : FS := fun f =>
  if f = "src/a.js" then some ⟨["./b"], "cA"⟩
  else if f = "src/b.js" then some ⟨["./a"], "cB"⟩
  else none

/-- The closed set of the two-module cycle. -/
def SAB : List String := ["src/a.js", "src/b.js"]

/-- Entry whose single specifier `./missing` resolves to a non-existent file. -/
def fs5 : FS := fun f =>
  if f = "src/entry.js" then some ⟨["./missing"], "cE"⟩ else none

/-- Acyclic chain: entry imports `./a`, `a` imports `./b`, `b` imports
nothing. -/
def fs9 : FS := fun f =>
  if f = "src/entry.js" then some ⟨["./a"], "cE"⟩
  else if f = "src/a.js" then some ⟨["./b"], "cA"⟩
  else if f = "src/b.js" then some ⟨[], "cB"⟩
  else none

/-- The entry record of the chain build. -/
def E9 : Asset := ⟨0, "src/entry.js", ["./a"], [("./a", 1)], "cE"⟩

/-- The `src/a.js` record of the chain build. -/
def A9 : Asset := ⟨1, "src/a.js", ["./b"], [("./b", 2)], "cA"⟩

/-- The `src/b.js` record of the chain build. -/
def B9 : Asset := ⟨2, "src/b.js", [], [], "cB"⟩

/-- The chain build's graph. -/
def G9 : List Asset := [E9, A9, B9]

/-- The entry asset of the chain before its mapping is filled in. -/
def E0 : Asset := ⟨0, "src/entry.js", ["./a"], [], "cE"⟩

/-- Duplicate-specifier fixture: `e` imports `./a` twice. -/
def fsDup : FS := fun f =>
  if f = "src/e.js" then some ⟨["./a", "./a"], "cE"⟩
  else if f = "src/a.js" then some ⟨[], "cA"⟩
  else none

/-- The unprocessed entry asset of the duplicate-specifier fixture. -/
def D0 : Asset := ⟨0, "src/e.js", ["./a", "./a"], [], "cE"⟩

/-- The graph the duplicate-specifier build produces: the entry plus one child
record per occurrence of `./a`, the entry's map keeping only the last
occurrence's identity 2. -/
def GDup : List Asset :=
  [⟨0, "src/e.js", ["./a", "./a"], [("./a", 2)], "cE"⟩,
   ⟨1, "src/a.js", [], [], "cA"⟩,
   ⟨2, "src/a.js", [], [], "cA"⟩]

/-- The `src/a.js` asset of the chain as freshly analyzed (mapping not yet
filled). -/
def A0 : Asset := ⟨1, "src/a.js", ["./b"], [], "cA"⟩

/-- A record collection for the determinism check. -/
def G7a : List Asset :=
  [⟨0, "x.js", ["./q"], [("./q", 1)], "c0"⟩, ⟨1, "q.js", [], [], "c1"⟩]

/-- Same identities, codes and mappings as `G7a`, but different filenames and
raw-specifier lists. -/
def G7b : List Asset :=
  [⟨0, "y.js", [], [("./q", 1)], "c0"⟩, ⟨1, "p.js", ["./z"], [], "c1"⟩]

/-- Runtime registry in which module 0 requires module 1 twice. -/
def reg3 : Registry := fun i =>
  if i = 0 then some ⟨["./a", "./a"], [("./a", 1)]⟩
  else if i = 1 then some ⟨[], []⟩
  else none

/-- Runtime registry with a require cycle between modules 0 and 1. -/
def regAB : Registry := fun i =>
  if i = 0 then some ⟨["./b"], [("./b", 1)]⟩
  else if i = 1 then some ⟨["./a"], [("./a", 0)]⟩
  else none

/-! ## Lemmas about the specifier-map operations -/

theorem lookupMap_nil (k : String) : lookupMap [] k = none := rfl

theorem lookupMap_cons (k' : String) (v : Nat) (m : List (String × Nat)) (k : String) :
    lookupMap ((k', v) :: m) k = if k' = k then some v else lookupMap m k := by
  by_cases h : k' = k
  · simp [lookupMap, List.find?, h]
  · have hb : (k' == k) = false := by simpa using h
    simp [lookupMap, List.find?, h, hb]

theorem lookupMap_mem_keys {m : List (String × Nat)} {k : String} {v : Nat}
    (h : lookupMap m k = some v) : k ∈ m.map Prod.fst := by
  induction m with
  | nil => simp [lookupMap] at h
  | cons p t ih =>
      obtain ⟨k', v'⟩ := p
      rw [lookupMap_cons] at h
      by_cases hk : k' = k
      · simp [hk]
      · simp only [if_neg hk] at h
        simp [ih h]

theorem lookupMap_map_update_self {m : List (String × Nat)} {k : String} (v : Nat)
    (h : k ∈ m.map Prod.fst) :
    lookupMap (m.map (fun p => if p.1 = k then (k, v) else p)) k = some v := by
  induction m with
  | nil => simp at h
  | cons p t ih =>
      obtain ⟨k', v'⟩ := p
      by_cases hk : k' = k
      · subst hk
        rw [List.map_cons, if_pos rfl, lookupMap_cons, if_pos rfl]
      · rw [List.map_cons, if_neg hk, lookupMap_cons, if_neg hk]
        rw [List.map_cons] at h
        rcases List.mem_cons.mp h with h | h
        · exact absurd h.symm hk
        · exact ih h

theorem lookupMap_map_update_ne {m : List (String × Nat)} {k k' : String} (v : Nat)
    (hne : k' ≠ k) :
    lookupMap (m.map (fun p => if p.1 = k then (k, v) else p)) k' = lookupMap m k' := by
  have hnk : ¬(k = k') := fun h => hne h.symm
  induction m with
  | nil => rfl
  | cons p t ih =>
      obtain ⟨k₁, v₁⟩ := p
      by_cases hk : k₁ = k
      · subst hk
        rw [List.map_cons, if_pos rfl, lookupMap_cons, if_neg hnk,
          lookupMap_cons, if_neg hnk]
        exact ih
      · rw [List.map_cons, if_neg hk, lookupMap_cons, lookupMap_cons, ih]

theorem lookupMap_append_single_self {m : List (String × Nat)} {k : String} (v : Nat)
    (h : k ∉ m.map Prod.fst) :
    lookupMap (m ++ [(k, v)]) k = some v := by
  induction m with
  | nil => rw [List.nil_append, lookupMap_cons, if_pos rfl]
  | cons p t ih =>
      obtain ⟨k₁, v₁⟩ := p
      simp only [List.map_cons, List.mem_cons, not_or] at h
      rw [List.cons_append, lookupMap_cons, if_neg (fun he => h.1 he.symm)]
      exact ih h.2

theorem lookupMap_append_single_ne {m : List (String × Nat)} {k k' : String} (v : Nat)
    (hne : k' ≠ k) :
    lookupMap (m ++ [(k, v)]) k' = lookupMap m k' := by
  induction m with
  | nil =>
      rw [List.nil_append, lookupMap_cons, if_neg (fun h => hne h.symm)]
  | cons p t ih =>
      obtain ⟨k₁, v₁⟩ := p
      rw [List.cons_append, lookupMap_cons, lookupMap_cons, ih]

theorem lookupMap_jsInsert_self (m : List (String × Nat)) (k : String) (v : Nat) :
    lookupMap (jsInsert m k v) k = some v := by
  unfold jsInsert
  split
  · exact lookupMap_map_update_self v (by assumption)
  · exact lookupMap_append_single_self v (by assumption)

theorem lookupMap_jsInsert_ne (m : List (String × Nat)) {k k' : String} (v : Nat)
    (hne : k' ≠ k) :
    lookupMap (jsInsert m k v) k' = lookupMap m k' := by
  unfold jsInsert
  split
  · exact lookupMap_map_update_ne v hne
  · exact lookupMap_append_single_ne v hne

theorem jsInsert_keys_of_mem {m : List (String × Nat)} {k : String} (v : Nat)
    (h : k ∈ m.map Prod.fst) :
    (jsInsert m k v).map Prod.fst = m.map Prod.fst := by
  unfold jsInsert
  rw [if_pos h, List.map_map]
  refine List.map_congr_left (fun p _ => ?_)
  by_cases hp : p.1 = k
  · simp [hp]
  · simp [hp]

theorem jsInsert_keys_of_not_mem {m : List (String × Nat)} {k : String} (v : Nat)
    (h : k ∉ m.map Prod.fst) :
    (jsInsert m k v).map Prod.fst = m.map Prod.fst ++ [k] := by
  unfold jsInsert
  rw [if_neg h, List.map_append]
  rfl

theorem jsInsert_count_le {m : List (String × Nat)} (k : String) (v : Nat)
    (h : ∀ s, ((m.map Prod.fst).count s) ≤ 1) :
    ∀ s, (((jsInsert m k v).map Prod.fst).count s) ≤ 1 := by
  intro s
  by_cases hk : k ∈ m.map Prod.fst
  · rw [jsInsert_keys_of_mem v hk]; exact h s
  · rw [jsInsert_keys_of_not_mem v hk, List.count_append]
    by_cases hs : s = k
    · subst hs
      have h0 : ((m.map Prod.fst).count s) = 0 := List.count_eq_zero.mpr hk
      have h1 : (List.count s [s]) = 1 := by simp
      omega
    · have h1 : (List.count s [k]) = 0 :=
        List.count_eq_zero.mpr (by simp [hs])
      have := h s
      omega

/-! ## Lemmas about the analyzer and the dependency loop -/

theorem createAsset_ok {fs : FS} {ctr : Nat} {f : String} {a : Asset} {c : Nat}
    (h : createAsset fs ctr f = .ok (a, c)) :
    a.id = ctr ∧ a.filename = f ∧ a.mapping = [] ∧ c = ctr + 1 ∧
      fs f = some ⟨a.deps, a.code⟩ := by
  unfold createAsset at h
  cases hfs : fs f with
  | none => rw [hfs] at h; simp at h
  | some src =>
      rw [hfs] at h
      injection h with h'
      injection h' with h1 h2
      subst h1; subst h2
      exact ⟨rfl, rfl, rfl, rfl, rfl⟩

theorem processDeps_cons_ok {fs : FS} {P : PathOps} {dir d : String} {ss : List String}
    {ctr : Nat} {m mp : List (String × Nat)} {ch : List Asset} {c' : Nat}
    (h : processDeps fs P dir (d :: ss) ctr m = .ok (mp, ch, c')) :
    ∃ child ch',
      createAsset fs ctr (P.join dir d ++ ".js") = .ok (child, ctr + 1) ∧
      processDeps fs P dir ss (ctr + 1) (jsInsert m d child.id) = .ok (mp, ch', c') ∧
      ch = child :: ch' := by
  rw [processDeps] at h
  split at h
  next e heq => simp at h
  next child ctr1 heq =>
    split at h
    next e2 heq2 => simp at h
    next m' ch'' c'' heq2 =>
      injection h with h'
      injection h' with h1 h2
      injection h2 with h21 h22
      obtain ⟨-, -, -, hc1, -⟩ := createAsset_ok heq
      subst hc1
      exact ⟨child, ch'', heq, by rw [heq2, h1, h22], h21.symm⟩

theorem processDeps_ok_spec {fs : FS} {P : PathOps} {dir : String} :
    ∀ {deps : List String} {ctr : Nat} {m mp : List (String × Nat)}
      {ch : List Asset} {c' : Nat},
      processDeps fs P dir deps ctr m = .ok (mp, ch, c') →
      ch.map (fun a => a.id) = List.range' ctr deps.length ∧
      ch.map (fun a => a.filename) = deps.map (fun s => P.join dir s ++ ".js") ∧
      c' = ctr + deps.length := by
  intro deps
  induction deps with
  | nil =>
      intro ctr m mp ch c' h
      rw [processDeps] at h
      injection h with h'
      injection h' with h1 h2
      injection h2 with h21 h22
      subst h1; subst h21; subst h22
      simp [List.range']
  | cons s ss ih =>
      intro ctr m mp ch c' h
      obtain ⟨child, ch', hc, hrec, hch⟩ := processDeps_cons_ok h
      subst hch
      obtain ⟨hid, hfn, -, -, -⟩ := createAsset_ok hc
      obtain ⟨ih1, ih2, ih3⟩ := ih hrec
      refine ⟨?_, ?_, ?_⟩
      · rw [List.map_cons, ih1, hid, List.length_cons, List.range'_succ]
      · rw [List.map_cons, ih2, hfn, List.map_cons]
      · rw [ih3, List.length_cons]
        omega

theorem processDeps_lookup_not_mem {fs : FS} {P : PathOps} {dir : String} {s : String} :
    ∀ {deps : List String} {ctr : Nat} {m mp : List (String × Nat)}
      {ch : List Asset} {c' : Nat},
      s ∉ deps →
      processDeps fs P dir deps ctr m = .ok (mp, ch, c') →
      lookupMap mp s = lookupMap m s := by
  intro deps
  induction deps with
  | nil =>
      intro ctr m mp ch c' _ h
      rw [processDeps] at h
      injection h with h'
      injection h' with h1 h2
      subst h1
      rfl
  | cons d ss ih =>
      intro ctr m mp ch c' hs h
      obtain ⟨child, ch', hc, hrec, hch⟩ := processDeps_cons_ok h
      have hsd : s ≠ d := fun he => hs (he ▸ List.mem_cons_self _ _)
      have hss : s ∉ ss := fun he => hs (List.mem_cons_of_mem _ he)
      rw [ih hss hrec, lookupMap_jsInsert_ne m child.id hsd]

theorem processDeps_lookup_last {fs : FS} {P : PathOps} {dir : String} {s : String} :
    ∀ {l₁ l₂ : List String} {ctr : Nat} {m mp : List (String × Nat)}
      {ch : List Asset} {c' : Nat},
      s ∉ l₂ →
      processDeps fs P dir (l₁ ++ s :: l₂) ctr m = .ok (mp, ch, c') →
      lookupMap mp s = some (ctr + l₁.length) := by
  intro l₁
  induction l₁ with
  | nil =>
      intro l₂ ctr m mp ch c' hs h
      rw [List.nil_append] at h
      obtain ⟨child, ch', hc, hrec, -⟩ := processDeps_cons_ok h
      obtain ⟨hid, -, -, -, -⟩ := createAsset_ok hc
      rw [processDeps_lookup_not_mem hs hrec, lookupMap_jsInsert_self m s child.id, hid]
      simp
  | cons d l₁ ih =>
      intro l₂ ctr m mp ch c' hs h
      rw [List.cons_append] at h
      obtain ⟨child, ch', hc, hrec, -⟩ := processDeps_cons_ok h
      rw [ih hs hrec, List.length_cons]
      congr 1
      omega

theorem processDeps_count_le {fs : FS} {P : PathOps} {dir : String} :
    ∀ {deps : List String} {ctr : Nat} {m mp : List (String × Nat)}
      {ch : List Asset} {c' : Nat},
      (∀ s, ((m.map Prod.fst).count s) ≤ 1) →
      processDeps fs P dir deps ctr m = .ok (mp, ch, c') →
      ∀ s, ((mp.map Prod.fst).count s) ≤ 1 := by
  intro deps
  induction deps with
  | nil =>
      intro ctr m mp ch c' hm h
      rw [processDeps] at h
      injection h with h'
      injection h' with h1 h2
      subst h1
      exact hm
  | cons d ss ih =>
      intro ctr m mp ch c' hm h
      obtain ⟨child, ch', hc, hrec, -⟩ := processDeps_cons_ok h
      exact ih (jsInsert_count_le d child.id hm) hrec

/-! ## Lemmas about the worklist loop -/

theorem processAsset_ok {fs : FS} {P : PathOps} {ctr : Nat} {a a' : Asset}
    {ch : List Asset} {c' : Nat}
    (h : processAsset fs P ctr a = .ok (a', ch, c')) :
    ∃ mp, processDeps fs P (P.dirname a.filename) a.deps ctr [] = .ok (mp, ch, c') ∧
      a' = { a with mapping := mp } := by
  unfold processAsset at h
  split at h
  next e heq => simp at h
  next mp ch2 c2 heq =>
    injection h with h'
    injection h' with h1 h2
    injection h2 with h21 h22
    exact ⟨mp, by rw [heq, h21, h22], h1.symm⟩

theorem buildLoop_ok_starts {fs : FS} {P : PathOps} :
    ∀ {fuel ctr : Nat} {done todo g : List Asset},
      buildLoop fs P fuel ctr done todo = some (.ok g) →
      ∃ t, g = done ++ t := by
  intro fuel
  induction fuel with
  | zero =>
      intro ctr done todo g h
      cases todo with
      | nil =>
          rw [buildLoop] at h
          injection h with h'
          injection h' with h1
          exact ⟨[], by rw [← h1, List.append_nil]⟩
      | cons a t => simp [buildLoop] at h
  | succ fuel ih =>
      intro ctr done todo g h
      cases todo with
      | nil =>
          rw [buildLoop] at h
          injection h with h'
          injection h' with h1
          exact ⟨[], by rw [← h1, List.append_nil]⟩
      | cons a t =>
          rw [buildLoop] at h
          split at h
          next e heq => simp at h
          next a' ch c2 heq =>
            obtain ⟨t', ht⟩ := ih h
            exact ⟨a' :: t', by rw [ht, List.append_assoc, List.singleton_append]⟩

theorem buildLoop_todo_mem {fs : FS} {P : PathOps} :
    ∀ {fuel ctr : Nat} {done todo g : List Asset} {a : Asset},
      a ∈ todo →
      buildLoop fs P fuel ctr done todo = some (.ok g) →
      ∃ r ∈ g, r.id = a.id ∧ r.filename = a.filename ∧
        r.deps = a.deps ∧ r.code = a.code := by
  intro fuel
  induction fuel with
  | zero =>
      intro ctr done todo g a hmem h
      cases todo with
      | nil => simp at hmem
      | cons b t => simp [buildLoop] at h
  | succ fuel ih =>
      intro ctr done todo g a hmem h
      cases todo with
      | nil => simp at hmem
      | cons b t =>
          rw [buildLoop] at h
          split at h
          next e heq => simp at h
          next b' ch c2 heq =>
            rcases List.mem_cons.mp hmem with hab | hat
            · subst hab
              obtain ⟨mp, -, hb'⟩ := processAsset_ok heq
              obtain ⟨t', ht⟩ := buildLoop_ok_starts h
              refine ⟨b', ?_, ?_, ?_, ?_, ?_⟩
              · rw [ht]
                exact List.mem_append_left _ (List.mem_append_right _ (List.mem_singleton_self _))
              · rw [hb']
              · rw [hb']
              · rw [hb']
              · rw [hb']
            · exact ih (List.mem_append_left _ hat) h

/-! ## Divergence of the build on closed cyclic sets -/

theorem srcOk_spec {fs : FS} {P : PathOps} {S : List String} {f : String}
    (h : srcOk fs P S f = true) :
    ∃ src, fs f = some src ∧ src.deps ≠ [] ∧
      ∀ s ∈ src.deps, P.join (P.dirname f) s ++ ".js" ∈ S := by
  unfold srcOk at h
  split at h
  next heq => cases h
  next src heq =>
    rw [Bool.and_eq_true, decide_eq_true_eq, List.all_eq_true] at h
    refine ⟨src, heq, h.1, fun s hs => ?_⟩
    have hx := h.2 s hs
    rwa [decide_eq_true_eq] at hx

theorem fsClosedOn_spec {fs : FS} {P : PathOps} {S : List String}
    (h : fsClosedOn fs P S = true) : ∀ f ∈ S, srcOk fs P S f = true := by
  rw [fsClosedOn, List.all_eq_true] at h
  exact h

theorem processDeps_closed {fs : FS} {P : PathOps} {S : List String}
    (hS : fsClosedOn fs P S = true) {dir : String} :
    ∀ (deps : List String) (ctr : Nat) (m : List (String × Nat)),
      (∀ s ∈ deps, P.join dir s ++ ".js" ∈ S) →
      ∃ mp ch c', processDeps fs P dir deps ctr m = .ok (mp, ch, c') ∧
        ch.length = deps.length ∧
        ∀ c ∈ ch, c.deps ≠ [] ∧
          ∀ s ∈ c.deps, P.join (P.dirname c.filename) s ++ ".js" ∈ S := by
  intro deps
  induction deps with
  | nil => intro ctr m _; exact ⟨m, [], ctr, rfl, rfl, by simp⟩
  | cons d ss ih =>
      intro ctr m hmem
      have hd : P.join dir d ++ ".js" ∈ S := hmem d (List.mem_cons_self _ _)
      obtain ⟨src, hsrc, hne, hcl⟩ := srcOk_spec (fsClosedOn_spec hS _ hd)
      have hca : createAsset fs ctr (P.join dir d ++ ".js") =
          .ok (⟨ctr, P.join dir d ++ ".js", src.deps, [], src.code⟩, ctr + 1) := by
        simp [createAsset, hsrc]
      obtain ⟨mp, ch, c', hrec, hlen, hgood⟩ :=
        ih (ctr + 1) (jsInsert m d ctr) (fun s hs => hmem s (List.mem_cons_of_mem _ hs))
      refine ⟨mp, ⟨ctr, P.join dir d ++ ".js", src.deps, [], src.code⟩ :: ch, c',
        ?_, ?_, ?_⟩
      · simp only [processDeps, hca, hrec]
      · simp [hlen]
      · intro c hc
        rcases List.mem_cons.mp hc with rfl | hc
        · exact ⟨hne, hcl⟩
        · exact hgood c hc

theorem buildLoop_closed_none {fs : FS} {P : PathOps} {S : List String}
    (hS : fsClosedOn fs P S = true) :
    ∀ (fuel ctr : Nat) (done todo : List Asset),
      todo ≠ [] →
      (∀ a ∈ todo, a.deps ≠ [] ∧
        ∀ s ∈ a.deps, P.join (P.dirname a.filename) s ++ ".js" ∈ S) →
      buildLoop fs P fuel ctr done todo = none := by
  intro fuel
  induction fuel with
  | zero =>
      intro ctr done todo hne hgood
      cases todo with
      | nil => exact absurd rfl hne
      | cons a t => rfl
  | succ fuel ih =>
      intro ctr done todo hne hgood
      cases todo with
      | nil => exact absurd rfl hne
      | cons a t =>
          obtain ⟨hane, hacl⟩ := hgood a (List.mem_cons_self _ _)
          obtain ⟨mp, ch, c', hpd, hlen, hch⟩ := processDeps_closed hS a.deps ctr [] hacl
          have hpa : processAsset fs P ctr a = .ok ({a with mapping := mp}, ch, c') := by
            unfold processAsset; rw [hpd]
          simp only [buildLoop, hpa]
          apply ih
          · have hchne : ch ≠ [] := by
              intro hc
              rw [hc] at hlen
              exact hane (List.length_eq_zero.mp hlen.symm)
            exact List.append_ne_nil_of_right_ne_nil t hchne
          · intro b hb
            rcases List.mem_append.mp hb with hb | hb
            · exact hgood b (List.mem_cons_of_mem _ hb)
            · exact hch b hb

theorem createGraph_closed_none {fs : FS} {P : PathOps} {S : List String}
    (hS : fsClosedOn fs P S = true) {entry : String} (hmem : entry ∈ S) :
    ∀ fuel, createGraph fs P fuel entry = none := by
  intro fuel
  obtain ⟨src, hsrc, hne, hcl⟩ := srcOk_spec (fsClosedOn_spec hS _ hmem)
  have hca : createAsset fs 0 entry = .ok (⟨0, entry, src.deps, [], src.code⟩, 1) := by
    simp [createAsset, hsrc]
  simp only [createGraph, hca]
  apply buildLoop_closed_none hS
  · simp
  · intro a ha
    rw [List.mem_singleton] at ha
    subst ha
    exact ⟨hne, hcl⟩

/-! ## Runtime-loader lemmas -/

theorem runReq_cycle_timeout {reg : Registry} {i j : Nat} {mi mj : RtModule}
    {si sj : String} {ri rj : List String}
    (hi : reg i = some mi) (hbi : mi.body = si :: ri)
    (hmi : lookupMap mi.mapping si = some j)
    (hj : reg j = some mj) (hbj : mj.body = sj :: rj)
    (hmj : lookupMap mj.mapping sj = some i) :
    ∀ fuel, runReq reg fuel i = .timeout ∧ runReq reg fuel j = .timeout := by
  intro fuel
  induction fuel with
  | zero => exact ⟨rfl, rfl⟩
  | succ fuel ih =>
      constructor
      · simp only [runReq, hi, hbi, runBodyWith, hmi, ih.2]
      · simp only [runReq, hj, hbj, runBodyWith, hmj, ih.1]

theorem runReq_ok_head {reg : Registry} {fuel i : Nat} {m : RtModule} {t : List Nat}
    (hm : reg i = some m) (h : runReq reg (fuel + 1) i = .ok t) :
    ∃ t', t = i :: t' := by
  cases hb : runBodyWith (runReq reg fuel) m.mapping m.body with
  | timeout => simp [runReq, hm, hb] at h
  | err e => simp [runReq, hm, hb] at h
  | ok t0 =>
      simp only [runReq, hm, hb, RunRes.ok.injEq] at h
      exact ⟨t0, h.symm⟩

theorem runBodyWith_twice {req : Nat → RunRes} {mp : List (String × Nat)} {s : String}
    {cid : Nat} {t : List Nat}
    (hl : lookupMap mp s = some cid) (hr : req cid = .ok t) :
    runBodyWith req mp [s, s] = .ok (t ++ t) := by
  simp only [runBodyWith, hl, hr, List.append_nil]

/-! ## Claim theorems -/

/-- C6: the entry module always receives the fixed identity 0 — the analysis
counter starts at 0 and the entry is analyzed first, so whenever the build
succeeds the graph's head is the entry's record with identity 0 — and the
emitted artifact's fixed loader preamble ends in the trailing bootstrap call
`require(0)`, starting evaluation exactly at that entry identity. -/
theorem c6_entry_identity_zero {fs : FS} {P : PathOps} {fuel : Nat} {entry : String}
    {g : List Asset} (h : createGraph fs P fuel entry = some (.ok g)) :
    (∃ a t, g = a :: t ∧ a.id = 0 ∧ a.filename = entry) ∧
      bundle g = bundleHeaderA ++ "require(0)" ++ bundleHeaderB ++
        modulesString g ++ bundleFooter := by
  refine ⟨?_, rfl⟩
  cases hca : createAsset fs 0 entry with
  | error e => simp [createGraph, hca] at h
  | ok pr =>
      obtain ⟨a0, c0⟩ := pr
      simp only [createGraph, hca] at h
      obtain ⟨hid, hfn, -, -, -⟩ := createAsset_ok hca
      cases fuel with
      | zero => simp [buildLoop] at h
      | succ fuel =>
          rw [buildLoop] at h
          split at h
          next e heq => simp at h
          next a' ch c2 heq =>
            obtain ⟨mp, -, ha'⟩ := processAsset_ok heq
            obtain ⟨t, ht⟩ := buildLoop_ok_starts h
            refine ⟨a', t, by simpa using ht, ?_, ?_⟩
            · rw [ha']; exact hid
            · rw [ha']; exact hfn

/-- C6 witness: the chain fixture instantiates the entry-identity theorem. -/
theorem c6_witness :
    createGraph fs9 pstd 6 "src/entry.js" = some (.ok G9) ∧
      ((∃ a t, G9 = a :: t ∧ a.id = 0 ∧ a.filename = "src/entry.js") ∧
        bundle G9 = bundleHeaderA ++ "require(0)" ++ bundleHeaderB ++
          modulesString G9 ++ bundleFooter) :=
  ⟨rfl, @c6_entry_identity_zero fs9 pstd 6 "src/entry.js" G9 rfl⟩

/-- C7: the Bundle Emitter is a pure, deterministic function of the record
collection: two collections agreeing pointwise on identity, code and specifier
mapping (the only fields the emitter reads) yield byte-identical artifact
strings, whatever their other fields hold. -/
theorem c7_bundle_deterministic {g1 g2 : List Asset}
    (h : List.Forall₂
      (fun a b => a.id = b.id ∧ a.code = b.code ∧ a.mapping = b.mapping) g1 g2) :
    bundle g1 = bundle g2 := by
  have hms : modulesString g1 = modulesString g2 := by
    induction h with
    | nil => rfl
    | cons hab hrest ih =>
        obtain ⟨h1, h2, h3⟩ := hab
        rw [modulesString, modulesString, ih]
        unfold moduleEntry
        rw [h1, h2, h3]
  unfold bundle
  rw [hms]

/-- C7 witness: two collections differing only in filenames and raw-specifier
lists produce the same artifact. -/
theorem c7_witness :
    List.Forall₂
      (fun a b => a.id = b.id ∧ a.code = b.code ∧ a.mapping = b.mapping) G7a G7b ∧
      bundle G7a = bundle G7b :=
  ⟨.cons ⟨rfl, rfl, rfl⟩ (.cons ⟨rfl, rfl, rfl⟩ .nil),
   c7_bundle_deterministic (.cons ⟨rfl, rfl, rfl⟩ (.cons ⟨rfl, rfl, rfl⟩ .nil))⟩

/-- C8: path resolution maps every (specifier, importing module's directory)
pair to the canonical path join(dir, specifier) + ".js", for all specifiers
uniformly: the children analyzed while processing a module are created exactly
at those derived paths, in specifier order. -/
theorem c8_resolution_appends_js {fs : FS} {P : PathOps} {ctr : Nat} {a a' : Asset}
    {ch : List Asset} {c' : Nat}
    (h : processAsset fs P ctr a = .ok (a', ch, c')) :
    ch.map (fun c => c.filename) =
      a.deps.map (fun s => P.join (P.dirname a.filename) s ++ ".js") := by
  obtain ⟨mp, hpd, -⟩ := processAsset_ok h
  exact (processDeps_ok_spec hpd).2.1

/-- C8 witness: processing the chain's entry analyzes its child exactly at
join("src", "./a") + ".js" = "src/a.js". -/
theorem c8_witness :
    processAsset fs9 pstd 1 E0 = .ok (E9, [A0], 2) ∧
      [A0].map (fun c => c.filename) =
        E0.deps.map (fun s => pstd.join (pstd.dirname E0.filename) s ++ ".js") :=
  ⟨rfl, @c8_resolution_appends_js fs9 pstd 1 E0 E9 [A0] 2 rfl⟩

/-- C9: the acyclic chain scenario: the build of entry → "./a" → "./b"
returns exactly the 3 records E9, A9, B9; the entry's map sends "./a" to A9's
identity and A9's map sends "./b" to B9's identity; the entry has identity 0,
and running the artifact (whose bootstrap is require(0)) first executes the
entry's body and completes without error, with trace [0, 1, 2]. -/
theorem c9_chain_scenario :
    createGraph fs9 pstd 6 "src/entry.js" = some (.ok G9) ∧
      G9.length = 3 ∧
      E9.id = 0 ∧
      lookupMap E9.mapping "./a" = some A9.id ∧
      lookupMap A9.mapping "./b" = some B9.id ∧
      runReq (registryOf G9) 9 0 = .ok [0, 1, 2] :=
  ⟨rfl, rfl, rfl, rfl, rfl, rfl⟩

/-- C1 counterexample: in the diamond fixture `src/a.js` is imported by the
two distinct modules `src/b.js` and `src/c.js`, yet the build analyzes it
twice: the graph holds two records for that canonical path (identities 3 and
4), and the two importers' specifier maps name different identities — refuting
"analyzed exactly once", "exactly one record", and "same identity". -/
theorem c1_counterexample :
    createGraph fs1 pstd 9 "src/e.js" = some (.ok G1) ∧
      (G1.filter (fun r => r.filename == "src/a.js")).length = 2 ∧
      lookupMap B1.mapping "./a" = some A1a.id ∧
      lookupMap Cr1.mapping "./a" = some A1b.id ∧
      A1a.filename = A1b.filename ∧
      A1a.id ≠ A1b.id :=
  ⟨rfl, rfl, rfl, rfl, rfl, by decide⟩

/-- C1 amended: `createGraph` performs no deduplication at all: every
specifier occurrence of every processed module triggers a fresh analysis,
yielding one new child record per occurrence with pairwise-distinct,
consecutive, fresh identities — a re-imported path receives a new identity
instead of reusing the existing record's. -/
theorem c1_no_dedup_fresh_children {fs : FS} {P : PathOps} {dir : String}
    {deps : List String} {ctr : Nat} {m mp : List (String × Nat)}
    {ch : List Asset} {c' : Nat}
    (h : processDeps fs P dir deps ctr m = .ok (mp, ch, c')) :
    ch.length = deps.length ∧
      ch.map (fun a => a.id) = List.range' ctr deps.length ∧
      (ch.map (fun a => a.id)).Nodup ∧
      c' = ctr + deps.length := by
  obtain ⟨h1, h2, h3⟩ := processDeps_ok_spec h
  refine ⟨?_, h1, ?_, h3⟩
  · have hl := congrArg List.length h1
    simpa using hl
  · rw [h1]
    exact List.nodup_range' _ _

/-- C1 amended witness: processing the chain entry's one specifier creates one
fresh child with identity 1. -/
theorem c1_witness :
    processDeps fs9 pstd "src" ["./a"] 1 [] = .ok ([("./a", 1)], [A0], 2) ∧
      ([A0].length = (["./a"] : List String).length ∧
        [A0].map (fun a => a.id) = List.range' 1 (["./a"] : List String).length ∧
        ([A0].map (fun a => a.id)).Nodup ∧
        2 = 1 + (["./a"] : List String).length) :=
  ⟨rfl, @c1_no_dedup_fresh_children fs9 pstd "src" ["./a"] 1 [] [("./a", 1)] [A0] 2 rfl⟩

/-- C5 counterexample: with the unresolvable specifier "./missing" in the
entry, the build does fail and emits nothing, but the failure is the raw
file-read error (the ENOENT of `fs.readFileSync`) naming only the derived
path "src/missing.js" — not a ResolutionError naming the importing module's
canonical path "src/entry.js" and the offending specifier "./missing". -/
theorem c5_counterexample :
    buildArtifact fs5 pstd 3 "src/entry.js" =
        some (.error (.readError "src/missing.js")) ∧
      Err.named (.readError "src/missing.js") ≠ "src/entry.js" ∧
      Err.named (.readError "src/missing.js") ≠ "./missing" :=
  ⟨rfl, by decide, by decide⟩

/-- C5 amended: for every entry whose dependency list starts with a specifier
resolving to a missing file, the build throws the read error naming the
derived path join(dir, specifier) + ".js", and no artifact string is
produced. -/
theorem c5_fails_with_read_error {fs : FS} {P : PathOps} {entry : String}
    {s : String} {rest : List String} {code : String} {fuel : Nat}
    (h1 : fs entry = some ⟨s :: rest, code⟩)
    (h3 : fs (P.join (P.dirname entry) s ++ ".js") = none) :
    buildArtifact fs P (fuel + 1) entry =
      some (.error (.readError (P.join (P.dirname entry) s ++ ".js"))) := by
  have hca : createAsset fs 0 entry = .ok (⟨0, entry, s :: rest, [], code⟩, 1) := by
    simp [createAsset, h1]
  have hca2 : createAsset fs 1 (P.join (P.dirname entry) s ++ ".js") =
      .error (.readError (P.join (P.dirname entry) s ++ ".js")) := by
    simp [createAsset, h3]
  simp only [buildArtifact, createGraph, hca, buildLoop, processAsset, processDeps,
    hca2, Option.map_some']
  rfl

/-- C5 amended witness: the concrete missing-file fixture. -/
theorem c5_witness :
    buildArtifact fs5 pstd 3 "src/entry.js" =
      some (.error (.readError
        (pstd.join (pstd.dirname "src/entry.js") "./missing" ++ ".js"))) :=
  @c5_fails_with_read_error fs5 pstd "src/entry.js" "./missing" [] "cE" 2 rfl rfl

/-- C10: a specifier occurring more than once in a module's dependency list
yields one freshly-analyzed child record per occurrence, with distinct
consecutive identities, and every such child survives into the emitted graph;
the module's specifier map keeps exactly one entry for that specifier, bound
to the identity assigned at its last occurrence, so the children of earlier
occurrences are unreachable through that module's map. -/
theorem c10_duplicate_specifiers {fs : FS} {P : PathOps} {fuel ctr : Nat}
    {done todo g : List Asset} {a : Asset} {l₁ l₂ : List String} {s : String}
    (hdeps : a.deps = l₁ ++ s :: l₂) (hs1 : s ∈ l₁) (hs2 : s ∉ l₂)
    (h : buildLoop fs P (fuel + 1) ctr done (a :: todo) = some (.ok g)) :
    ∃ a' ch c', processAsset fs P ctr a = .ok (a', ch, c') ∧
      ch.length = a.deps.length ∧
      ch.map (fun c => c.id) = List.range' ctr a.deps.length ∧
      lookupMap a'.mapping s = some (ctr + l₁.length) ∧
      ((a'.mapping.map Prod.fst).count s) = 1 ∧
      (∀ c ∈ ch, ∃ r ∈ g, r.id = c.id ∧ r.filename = c.filename) ∧
      (∀ i < l₁.length, lookupMap a'.mapping s ≠ some (ctr + i)) := by
  rw [buildLoop] at h
  split at h
  next e heq => simp at h
  next a' ch c2 heq =>
    obtain ⟨mp, hpd, ha'⟩ := processAsset_ok heq
    obtain ⟨hids, -, -⟩ := processDeps_ok_spec hpd
    have hmap : a'.mapping = mp := by rw [ha']
    have hlast : lookupMap mp s = some (ctr + l₁.length) := by
      rw [hdeps] at hpd
      exact processDeps_lookup_last hs2 hpd
    refine ⟨a', ch, c2, heq, ?_, hids, ?_, ?_, ?_, ?_⟩
    · have hl := congrArg List.length hids
      simpa using hl
    · rw [hmap]; exact hlast
    · have hle := processDeps_count_le (fun t => by simp) hpd s
      have hmem : s ∈ mp.map Prod.fst := lookupMap_mem_keys hlast
      have hpos : 0 < ((mp.map Prod.fst).count s) := List.count_pos_iff.mpr hmem
      rw [hmap]
      omega
    · intro c hc
      exact (buildLoop_todo_mem (List.mem_append_right todo hc) h).imp
        (fun r hr => ⟨hr.1, hr.2.1, hr.2.2.1⟩)
    · intro i hi
      rw [hmap, hlast]
      intro hcontr
      injection hcontr with hc'
      omega

/-- C10 witness: the duplicate-specifier fixture (entry importing "./a"
twice) instantiates the theorem. -/
theorem c10_witness :
    buildLoop fsDup pstd 3 1 [] [D0] = some (.ok GDup) ∧
      (∃ a' ch c', processAsset fsDup pstd 1 D0 = .ok (a', ch, c') ∧
        ch.length = D0.deps.length ∧
        ch.map (fun c => c.id) = List.range' 1 D0.deps.length ∧
        lookupMap a'.mapping "./a" = some (1 + (["./a"] : List String).length) ∧
        ((a'.mapping.map Prod.fst).count "./a") = 1 ∧
        (∀ c ∈ ch, ∃ r ∈ GDup, r.id = c.id ∧ r.filename = c.filename) ∧
        (∀ i < (["./a"] : List String).length,
          lookupMap a'.mapping "./a" ≠ some (1 + i))) :=
  ⟨rfl, @c10_duplicate_specifiers fsDup pstd 2 1 [] [] GDup D0 ["./a"] [] "./a"
    rfl (by decide) (by decide) rfl⟩

/-- C2 counterexample: with the two-module import cycle (`src/a.js` imports
"./b" and `src/b.js` imports "./a"), `createGraph` does not terminate: the
queue never empties, so no fuel bound yields a result — in particular no
two-record graph is ever produced. -/
theorem c2_counterexample : ¬ GraphBuildTerminates fsAB pstd "src/a.js" := by
  rintro ⟨fuel, res, h⟩
  have hnone := @createGraph_closed_none fsAB pstd SAB (by decide) "src/a.js"
    (by decide) fuel
  rw [h] at hnone
  cases hnone

/-- C2 amended: on any closed cyclic set of module files (each file of the set
exists, has at least one import, and all its imports resolve within the set),
`createGraph` started at an entry of the set does not terminate: every fuel
bound is exhausted and no record collection — of two records, three, or any
other size — is ever returned. -/
theorem c2_cyclic_build_diverges {fs : FS} {P : PathOps} {S : List String}
    (hS : fsClosedOn fs P S = true) {entry : String} (hmem : entry ∈ S) :
    ∀ fuel, createGraph fs P fuel entry = none :=
  createGraph_closed_none hS hmem

/-- C2 amended witness: the two-module cycle at fuel 9. -/
theorem c2_witness : createGraph fsAB pstd 9 "src/a.js" = none :=
  @c2_cyclic_build_diverges fsAB pstd SAB (by decide) "src/a.js" (by decide) 9

/-- C3 counterexample: in the registry where module 0's body requires "./a"
twice (both occurrences resolving to module 1), one single execution of the
artifact runs module 1's body twice — the trace is [0, 1, 1] — because the
second require re-executes the body instead of returning a cached exports
object. -/
theorem c3_counterexample :
    runReq reg3 3 0 = .ok [0, 1, 1] ∧ ¬ ((List.count 1 [0, 1, 1]) ≤ 1) :=
  ⟨rfl, by decide⟩

/-- C3 amended: the generated loader has no module cache: every `require` of a
registered identity that completes enters the module's body (its trace starts
with that identity), and a body requiring the same specifier twice runs the
target module's body twice — the trace doubles instead of the second call
being served from a cache. -/
theorem c3_no_memoization {reg : Registry} {fuel cid : Nat} {m : RtModule}
    {mp : List (String × Nat)} {s : String} {t : List Nat}
    (hm : reg cid = some m)
    (hl : lookupMap mp s = some cid)
    (hr : runReq reg (fuel + 1) cid = .ok t) :
    (∃ t', t = cid :: t') ∧
      runBodyWith (runReq reg (fuel + 1)) mp [s, s] = .ok (t ++ t) ∧
      ((t ++ t).count cid) = 2 * (t.count cid) ∧
      1 ≤ (t.count cid) := by
  obtain ⟨t', ht⟩ := runReq_ok_head hm hr
  refine ⟨⟨t', ht⟩, runBodyWith_twice hl hr, ?_, ?_⟩
  · rw [List.count_append]
    omega
  · rw [ht, List.count_cons_self]
    omega

/-- C3 amended witness: requiring module 1 (empty body) twice from a body
yields the doubled trace [1, 1]. -/
theorem c3_witness :
    (∃ t', ([1] : List Nat) = 1 :: t') ∧
      runBodyWith (runReq reg3 2) [("./a", 1)] ["./a", "./a"] =
        .ok (([1] : List Nat) ++ [1]) ∧
      ((([1] : List Nat) ++ [1]).count 1) = 2 * (([1] : List Nat).count 1) ∧
      1 ≤ (([1] : List Nat).count 1) :=
  @c3_no_memoization reg3 1 1 ⟨[], []⟩ [("./a", 1)] "./a" [1] rfl rfl rfl

/-- C4 counterexample: executing the artifact built from the cyclic graph
(module 0 requires module 1 and vice versa) does not terminate: the generated
require re-enters the module bodies without bound, exhausting every fuel,
instead of returning the in-progress exports object of the module observed
mid-load. -/
theorem c4_counterexample : ¬ RtTerminates regAB 0 := by
  rintro ⟨fuel, hne⟩
  exact hne (@runReq_cycle_timeout regAB 0 1 ⟨["./b"], [("./b", 1)]⟩
    ⟨["./a"], [("./a", 0)]⟩ "./b" "./a" [] [] rfl rfl rfl rfl rfl rfl fuel).1

/-- C4 amended: whenever the runtime import relation has a two-cycle at the
head of the bodies (module i's body first requires a specifier its map sends
to j, and j's body first requires one sent back to i), the generated loader
re-enters the two bodies forever: execution started at i exhausts every fuel
bound. -/
theorem c4_runtime_cycle_diverges {reg : Registry} {i j : Nat} {mi mj : RtModule}
    {si sj : String} {ri rj : List String}
    (hi : reg i = some mi) (hbi : mi.body = si :: ri)
    (hmi : lookupMap mi.mapping si = some j)
    (hj : reg j = some mj) (hbj : mj.body = sj :: rj)
    (hmj : lookupMap mj.mapping sj = some i) :
    ∀ fuel, runReq reg fuel i = .timeout :=
  fun fuel => (runReq_cycle_timeout hi hbi hmi hj hbj hmj fuel).1

/-- C4 amended witness: the concrete 0↔1 require cycle at fuel 17. -/
theorem c4_witness : runReq regAB 17 0 = .timeout :=
  @c4_runtime_cycle_diverges regAB 0 1 ⟨["./b"], [("./b", 1)]⟩
    ⟨["./a"], [("./a", 0)]⟩ "./b" "./a" [] [] rfl rfl rfl rfl rfl rfl 17

end Minipack
